import Mathlib

/-!
Verification of the fabric-composer resource-model core and connector server.

The composer-common core (Introspector, Factory, Typed object hierarchy,
Serializer, Validation layer) is present in the repository only through its
API declaration file; its definitions below are therefore modelled from the
specification. The connector server (ConnectorServer, serializerr) is
embedded from its JavaScript source.
-/

namespace FabricComposer

/-- Generic association-list lookup by string key, first match wins.
This models JavaScript property access on a plain object used as a map. -/
def assocLookup {α : Type} (l : List (String × α)) (k : String) : Option α :=
  (l.find? (fun p => p.1 == k)).map (fun p => p.2)

/-- Insert or replace a key in an association list, keeping the position of
an existing key and appending a new key at the end. -/
def assocUpsert {α : Type} : List (String × α) → String → α → List (String × α)
  | [], k, v => [(k, v)]
  | (k1, v1) :: rest, k, v =>
    if k1 == k then (k, v) :: rest else (k1, v1) :: assocUpsert rest k v

/-- Modelled from the spec: the declared type of a field in a Class
Declaration. Primitive kinds, a relationship reference to a target type
given by namespace and type name, and arrays of an element type. -/
inductive PropType : Type
  | pString : PropType
  | pInteger : PropType
  | pBoolean : PropType
  | pRel (rns rty : String) : PropType
  | pArr (elem : PropType) : PropType
deriving DecidableEq, Repr

/-- Modelled from the spec: a runtime field value of a Typed instance.
A relationship value carries only the (namespace, type, identifier)
reference triple of the referenced resource. -/
inductive Value : Type
  | vString (s : String) : Value
  | vInteger (n : Int) : Value
  | vBoolean (b : Bool) : Value
  | vRelationship (ns ty id : String) : Value
  | vArray (elems : List Value) : Value

/-- A plain JSON-compatible tree, the target of serialization. -/
inductive Json : Type
  | jstr (s : String) : Json
  | jint (n : Int) : Json
  | jbool (b : Bool) : Json
  | jarr (elems : List Json) : Json
  | jobj (fields : List (String × Json)) : Json

mutual

/-- Modelled from the spec: a runtime value conforms to a declared field
type. A relationship value conforms when its target namespace and type
match the declaration; arrays conform elementwise. -/
def conforms : PropType → Value → Bool
  | .pString, .vString _ => true
  | .pInteger, .vInteger _ => true
  | .pBoolean, .vBoolean _ => true
  | .pRel rns rty, .vRelationship ns ty _ => ns == rns && ty == rty
  | .pArr t, .vArray vs => conformsList t vs
  | _, _ => false

/-- Elementwise conformance of a list of values to an element type. -/
def conformsList : PropType → List Value → Bool
  | _, [] => true
  | t, v :: vs => conforms t v && conformsList t vs

end

mutual

/-- Modelled from the spec: serialization of a single field value with
default options. A relationship is emitted as the plain identifier string
of the referenced resource, not an expanded object; arrays are emitted
elementwise preserving order. -/
def toJSONValue : Value → Json
  | .vString s => .jstr s
  | .vInteger n => .jint n
  | .vBoolean b => .jbool b
  | .vRelationship _ _ id => .jstr id
  | .vArray vs => .jarr (toJSONList vs)

/-- Elementwise serialization of an array value, preserving order. -/
def toJSONList : List Value → List Json
  | [] => []
  | v :: vs => toJSONValue v :: toJSONList vs

end

/-- Modelled from the spec: the error taxonomy of the core. -/
inductive CError : Type
  | typeNotFound (fqn : String) : CError
  | illegalModel (msg : String) : CError
  | unknownField (field : String) : CError
  | typeMismatch (field : String) : CError
  | missingRequiredField (field : String) : CError
  | serializationError (msg : String) : CError
  | abstractType (fqn : String) : CError
  | notIdentifiable (fqn : String) : CError
  | relationshipModified (field : String) : CError
deriving DecidableEq, Repr

mutual

/-- Modelled from the spec: deserialization of a single field value against
its declared type. A JSON string at a position where the schema declares a
relationship is accepted and wrapped as a relationship stub of the declared
target type. -/
def fromJSONValue : PropType → Json → Except CError Value
  | .pString, .jstr s => .ok (.vString s)
  | .pInteger, .jint n => .ok (.vInteger n)
  | .pBoolean, .jbool b => .ok (.vBoolean b)
  | .pRel rns rty, .jstr id => .ok (.vRelationship rns rty id)
  | .pArr t, .jarr xs => (fromJSONList t xs).map Value.vArray
  | _, _ => .error (.serializationError "value does not match declared type")

/-- Elementwise deserialization of a JSON array against the element type. -/
def fromJSONList : PropType → List Json → Except CError (List Value)
  | _, [] => .ok []
  | t, x :: xs =>
    match fromJSONValue t x, fromJSONList t xs with
    | .ok v, .ok vs => .ok (v :: vs)
    | .error e, _ => .error e
    | _, .error e => .error e

end

/-- Modelled from the spec: one declared field of a Class Declaration,
with its name, declared type and optionality. -/
structure FieldDecl : Type where
  name : String
  ftype : PropType
  isOptional : Bool
deriving DecidableEq, Repr

/-- Modelled from the spec: a Class Declaration, the schema unit held by
the Model Registry. It carries a fully-qualified name (namespace and type
name), an optional supertype reference, the declared fields, an abstract
flag, and the name of the identifying field when the declaration is
identifiable. -/
structure ClassDeclaration : Type where
  ns : String
  name : String
  superType : Option String
  fields : List FieldDecl
  isAbstract : Bool
  idField : Option String
deriving DecidableEq, Repr

/-- The fully-qualified name of a declaration. -/
def ClassDeclaration.fqn (d : ClassDeclaration) : String :=
  d.ns ++ "." ++ d.name

/-- Modelled from the spec: the Model Registry holds class declarations in
registration order, indexed by fully-qualified name. -/
abbrev Registry : Type := List ClassDeclaration

/-- A well-formed registry registers at most one declaration per
fully-qualified name. -/
abbrev wellFormedRegistry (reg : Registry) : Prop :=
  (List.map ClassDeclaration.fqn reg).Nodup

/-- Modelled from the spec: Introspector resolution of a declaration by
fully-qualified name, failing with a TypeNotFound error when no declaration
with that name is registered. Pure: the registry is read, never written. -/
def getClassDeclaration (reg : Registry) (fqn : String) :
    Except CError ClassDeclaration :=
  match List.find? (fun d => d.fqn == fqn) reg with
  | some d => .ok d
  | none => .error (.typeNotFound fqn)

/-- Modelled from the spec: Introspector listing of all registered
declarations in registration order. -/
def getClassDeclarations (reg : Registry) : List ClassDeclaration := reg

/-- Modelled from the spec: the declared fields of a declaration together
with those inherited along the supertype chain. The fuel bounds the walk so
that a structurally invalid cyclic chain terminates. -/
def collectFields (reg : Registry) : Nat → ClassDeclaration → List FieldDecl
  | 0, d => d.fields
  | fuel + 1, d =>
    match d.superType with
    | none => d.fields
    | some sup =>
      match getClassDeclaration reg sup with
      | .ok sd => d.fields ++ collectFields reg fuel sd
      | .error _ => d.fields

/-- All fields of a declaration, own and inherited, with fuel fixed to the
registry size. -/
def allFields (reg : Registry) (d : ClassDeclaration) : List FieldDecl :=
  collectFields reg reg.length d

/-- The three-way kind discriminator of a typed instance, fixed at
construction. -/
inductive Kind : Type
  | concept : Kind
  | resource : Kind
  | relationship : Kind
deriving DecidableEq, Repr

/-- Modelled from the spec: a runtime typed instance. It is tagged with the
fully-qualified name of its declaring class (namespace and type name), a
kind discriminator fixed at construction, an identifier (meaningful for
resources and relationships), a property bag mapping field names to values,
and a flag selecting validated mutation. A relationship instance carries an
empty property bag: it is only the reference triple. -/
structure TypedInstance : Type where
  ns : String
  typeName : String
  kind : Kind
  identifier : String
  props : List (String × Value)
  validated : Bool

/-- The fully-qualified type of an instance. -/
def getFullyQualifiedType (t : TypedInstance) : String :=
  t.ns ++ "." ++ t.typeName

/-- The kind discriminator: resource test. -/
def isResource (t : TypedInstance) : Bool := t.kind == .resource

/-- The kind discriminator: relationship test. -/
def isRelationship (t : TypedInstance) : Bool := t.kind == .relationship

/-- The identifier of an identifiable instance. -/
def getIdentifier (t : TypedInstance) : String := t.identifier

/-- Read a property value from the property bag. -/
def getPropertyValue (t : TypedInstance) (nm : String) : Option Value :=
  assocLookup t.props nm

/-- Modelled from the spec: set a property on an instance. A relationship
never carries field data beyond its reference triple, so mutation of a
relationship is rejected rather than silently tolerated. On a validated
instance the field must be declared on the Class Declaration or along its
supertype chain and the value must conform to the declared type; an
unvalidated instance accepts any mutation. -/
def setPropertyValue (reg : Registry) (t : TypedInstance) (nm : String)
    (v : Value) : Except CError TypedInstance :=
  if t.kind == .relationship then .error (.relationshipModified nm)
  else if t.validated then
    match getClassDeclaration reg (getFullyQualifiedType t) with
    | .error e => .error e
    | .ok d =>
      match List.find? (fun f => f.name == nm) (allFields reg d) with
      | none => .error (.unknownField nm)
      | some f =>
        if conforms f.ftype v then
          .ok { t with props := assocUpsert t.props nm v }
        else .error (.typeMismatch nm)
  else .ok { t with props := assocUpsert t.props nm v }

/-- Append a value to an array-valued property, creating the array when the
property is unset. -/
def pushArrayValue (props : List (String × Value)) (nm : String) (v : Value) :
    List (String × Value) :=
  match assocLookup props nm with
  | some (.vArray vs) => assocUpsert props nm (.vArray (vs ++ [v]))
  | _ => assocUpsert props nm (.vArray [v])

/-- Modelled from the spec: add an element to an array-valued property.
Mutation of a relationship is rejected; on a validated instance the field
must be declared with an array type and the element must conform to the
element type. -/
def addArrayValue (reg : Registry) (t : TypedInstance) (nm : String)
    (v : Value) : Except CError TypedInstance :=
  if t.kind == .relationship then .error (.relationshipModified nm)
  else if t.validated then
    match getClassDeclaration reg (getFullyQualifiedType t) with
    | .error e => .error e
    | .ok d =>
      match List.find? (fun f => f.name == nm) (allFields reg d) with
      | none => .error (.unknownField nm)
      | some f =>
        match f.ftype with
        | .pArr et =>
          if conforms et v then
            .ok { t with props := pushArrayValue t.props nm v }
          else .error (.typeMismatch nm)
        | _ => .error (.typeMismatch nm)
  else .ok { t with props := pushArrayValue t.props nm v }

/-- Modelled from the spec: the explicit validate call re-checks that every
required declared field other than the identifying field is present. -/
def validateInstance (reg : Registry) (t : TypedInstance) :
    Except CError Unit :=
  match getClassDeclaration reg (getFullyQualifiedType t) with
  | .error e => .error e
  | .ok d =>
    match List.find? (fun f =>
        !f.isOptional && (assocLookup t.props f.name).isNone
          && !(some f.name == d.idField)) (allFields reg d) with
    | some f => .error (.missingRequiredField f.name)
    | none => .ok ()

/-- Modelled from the spec: Factory construction of a new Resource. Fails
when the type is not registered, is abstract, or is not identifiable. The
validate flag selects whether the returned instance enforces field checks
on subsequent mutation. -/
def newResource (reg : Registry) (ns tyName id : String) (validate : Bool) :
    Except CError TypedInstance :=
  match getClassDeclaration reg (ns ++ "." ++ tyName) with
  | .error e => .error e
  | .ok d =>
    if d.isAbstract then .error (.abstractType (ns ++ "." ++ tyName))
    else
      match d.idField with
      | none => .error (.notIdentifiable (ns ++ "." ++ tyName))
      | some _ => .ok ⟨ns, tyName, .resource, id, [], validate⟩

/-- Modelled from the spec: Factory construction of a new Relationship, a
reference-only instance carrying just the (namespace, type, identifier)
triple. Fails when the type is not registered or not identifiable. -/
def newRelationship (reg : Registry) (ns tyName id : String) :
    Except CError TypedInstance :=
  match getClassDeclaration reg (ns ++ "." ++ tyName) with
  | .error e => .error e
  | .ok d =>
    match d.idField with
    | none => .error (.notIdentifiable (ns ++ "." ++ tyName))
    | some _ => .ok ⟨ns, tyName, .relationship, id, [], false⟩

/-- Modelled from the spec: Factory construction of a new Concept, a
non-identifiable structured value. Fails when the type is not registered,
is abstract, or is identifiable. -/
def newConcept (reg : Registry) (ns tyName : String) (validate : Bool) :
    Except CError TypedInstance :=
  match getClassDeclaration reg (ns ++ "." ++ tyName) with
  | .error e => .error e
  | .ok d =>
    if d.isAbstract then .error (.abstractType (ns ++ "." ++ tyName))
    else
      match d.idField with
      | some _ => .error (.illegalModel (ns ++ "." ++ tyName))
      | none => .ok ⟨ns, tyName, .concept, "", [], validate⟩

/-- Modelled from the spec: the serialized entries for a list of declared
fields, in declaration order. The identifying field is emitted from the
identifier of the instance; any other set field is emitted through
toJSONValue; an unset field is skipped. -/
def serializeEntries (idf : Option String) (ident : String)
    (props : List (String × Value)) : List FieldDecl → List (String × Json)
  | [] => []
  | f :: fs =>
    let rest := serializeEntries idf ident props fs
    if some f.name == idf then (f.name, .jstr ident) :: rest
    else
      match assocLookup props f.name with
      | some v => (f.name, toJSONValue v) :: rest
      | none => rest

/-- Modelled from the spec: serialization of an instance with default
options. The result is an object whose first entry is the class tag holding
the fully-qualified type, followed by one entry per declared, set field in
declaration order. A relationship instance is not serializable under the
default options. -/
def toJSON (reg : Registry) (r : TypedInstance) : Except CError Json :=
  match getClassDeclaration reg (getFullyQualifiedType r) with
  | .error e => .error e
  | .ok d =>
    if r.kind == .relationship then
      .error (.serializationError "cannot serialize a relationship")
    else
      .ok (.jobj (("$class", .jstr (getFullyQualifiedType r)) ::
        serializeEntries d.idField r.identifier r.props (allFields reg d)))

/-- Modelled from the spec: deserialization of the declared fields of an
object, skipping the identifying field, ignoring absent fields and
deserializing each present field against its declared type. -/
def deserializeEntries (idf : Option String) (kvs : List (String × Json)) :
    List FieldDecl → Except CError (List (String × Value))
  | [] => .ok []
  | f :: fs =>
    match deserializeEntries idf kvs fs with
    | .error e => .error e
    | .ok rest =>
      if some f.name == idf then .ok rest
      else
        match assocLookup kvs f.name with
        | none => .ok rest
        | some jv =>
          match fromJSONValue f.ftype jv with
          | .error e => .error e
          | .ok v => .ok ((f.name, v) :: rest)

/-- Modelled from the spec: deserialization of a whole instance. The object
must carry a class tag resolving in the registry; the identifying field, when
the declaration is identifiable, must be present as a string and becomes the
identifier; the remaining declared fields are deserialized against their
declared types. The reconstructed instance is a validated resource when the
declaration is identifiable and a concept otherwise. -/
def fromJSON (reg : Registry) (j : Json) : Except CError TypedInstance :=
  match j with
  | .jobj kvs =>
    match assocLookup kvs "$class" with
    | some (.jstr cls) =>
      match getClassDeclaration reg cls with
      | .error e => .error e
      | .ok d =>
        match deserializeEntries d.idField kvs (allFields reg d) with
        | .error e => .error e
        | .ok props =>
          match d.idField with
          | some idf =>
            match assocLookup kvs idf with
            | some (.jstr s) => .ok ⟨d.ns, d.name, .resource, s, props, true⟩
            | _ => .error (.serializationError "missing identifier")
          | none => .ok ⟨d.ns, d.name, .concept, "", props, true⟩
    | _ => .error (.serializationError "missing class tag")
  | _ => .error (.serializationError "not an object")

/-- Modelled from the spec: one core operation of a caller session against
the Model Registry and the already-constructed instances. -/
inductive FOp : Type
  | opNewResource (ns tyName id : String) (validate : Bool) : FOp
  | opNewRelationship (ns tyName id : String) : FOp
  | opSetProperty (key : Nat) (nm : String) (v : Value) : FOp
  | opToJSON (key : Nat) : FOp
  | opFromJSON (j : Json) : FOp

/-- Modelled from the spec: the state visible to a caller session: the
populated Model Registry and the instances constructed so far, indexed by a
session-local key. -/
structure SessionState : Type where
  registry : Registry
  instances : List (Nat × TypedInstance)

/-- Modelled from the spec: the successful effect of one core operation. A
successful construction appends the new instance; a successful mutation
replaces the mutated instance; serialization reads but never writes. The
registry component is only ever copied, never rebuilt: the core performs
registry lookups but no registry writes. -/
def applyOp (s : SessionState) : FOp → Except CError SessionState
  | .opNewResource ns tyName id validate =>
    match newResource s.registry ns tyName id validate with
    | .ok r => .ok ⟨s.registry, s.instances ++ [(s.instances.length, r)]⟩
    | .error e => .error e
  | .opNewRelationship ns tyName id =>
    match newRelationship s.registry ns tyName id with
    | .ok r => .ok ⟨s.registry, s.instances ++ [(s.instances.length, r)]⟩
    | .error e => .error e
  | .opSetProperty key nm v =>
    match (s.instances.find? (fun p => p.1 == key)).map (fun p => p.2) with
    | none => .error (.serializationError "no such instance")
    | some t =>
      match setPropertyValue s.registry t nm v with
      | .ok r =>
        .ok ⟨s.registry, s.instances.map (fun p =>
          if p.1 == key then (p.1, r) else p)⟩
      | .error e => .error e
  | .opToJSON key =>
    match (s.instances.find? (fun p => p.1 == key)).map (fun p => p.2) with
    | none => .error (.serializationError "no such instance")
    | some t =>
      match toJSON s.registry t with
      | .ok _ => .ok s
      | .error e => .error e
  | .opFromJSON j =>
    match fromJSON s.registry j with
    | .ok r => .ok ⟨s.registry, s.instances ++ [(s.instances.length, r)]⟩
    | .error e => .error e

/-- Modelled from the spec: run one core operation against the session
state. A failure leaves the state exactly as it was and is surfaced
synchronously as the error component of the result, never retried and
never fatal. -/
def runOp (s : SessionState) (op : FOp) : SessionState × Except CError Unit :=
  match applyOp s op with
  | .ok s2 => (s2, .ok ())
  | .error e => (s, .error e)

/-- A JavaScript runtime value, as far as the connector server needs one:
null, undefined, primitives, Error instances (with name and message) and
plain objects. -/
inductive JSVal : Type
  | vNull : JSVal
  | vUndefined : JSVal
  | vBoolean (b : Bool) : JSVal
  | vNumber (n : Int) : JSVal
  | vString (s : String) : JSVal
  | vError (name message : String) : JSVal
  | vObj (fields : List (String × JSVal)) : JSVal

/-- JavaScript string conversion via the toString method. Calling toString
on null or undefined throws a TypeError, modelled as the error branch. An
Error instance prints its name and, when nonempty, its message; a plain
object prints the generic object tag. -/
def jsToString : JSVal → Except JSVal String
  | .vNull => .error (.vError "TypeError" "Cannot read properties of null")
  | .vUndefined =>
    .error (.vError "TypeError" "Cannot read properties of undefined")
  | .vBoolean b => .ok (if b then "true" else "false")
  | .vNumber n => .ok (toString n)
  | .vString s => .ok s
  | .vError n m => .ok (if m == "" then n else n ++ ": " ++ m)
  | .vObj _ => .ok "[object Object]"

/-- The instanceof Error test. -/
def isErrorInstance : JSVal → Bool
  | .vError _ _ => true
  | _ => false

/-- The underlying serializerr library: it flattens an Error instance into
a plain object exposing its name and message. -/
def realSerializerr (name message : String) : JSVal :=
  .vObj [("name", .vString name), ("message", .vString message)]

/-- The serializerr wrapper of connectorserver.js: an Error instance is
serialized directly; any other value is first converted with toString and
wrapped in a new Error. The toString call can throw, which propagates as
the error branch. -/
def serializerr (v : JSVal) : Except JSVal JSVal :=
  match v with
  | .vError n m => .ok (realSerializerr n m)
  | _ =>
    match jsToString v with
    | .ok s => .ok (realSerializerr "Error" s)
    | .error t => .error t

/-- An observable callback invocation of a connector server handler:
either a failure callback carrying a serialized error, or a success
callback with no result or with one result value. -/
inductive CbCall : Type
  | cbFailure (e : JSVal) : CbCall
  | cbSuccess0 : CbCall
  | cbSuccess1 (v : JSVal) : CbCall

/-- The callback invocations produced by passing a value through
serializerr into the failure callback: when serializerr itself throws, the
callback is never invoked. -/
def errCb (r : Except JSVal JSVal) : List CbCall :=
  match r with
  | .ok o => [.cbFailure o]
  | .error _ => []

/-- The Error constructed by every handler when the connection ID has no
entry in the connections map. -/
def noConnectionError (connectionID : String) : JSVal :=
  .vError "Error" ("No connection found with ID " ++ connectionID)

/-- The Error constructed by every handler when the security context ID has
no entry in the security contexts map. -/
def noSecurityContextError (securityContextID : String) : JSVal :=
  .vError "Error" ("No security context found with ID " ++ securityContextID)

/-- The state of a ConnectorServer: the connections map and the security
contexts map, keyed by ID strings; the stored connections and security
contexts are opaque handles. -/
structure ServerState : Type where
  connections : List (String × Nat)
  securityContexts : List (String × Nat)
deriving DecidableEq, Repr

/-- The observable outcome of one handler invocation: the server state
after the call, the callback invocations in order, and the names of the
methods invoked on a connection, in order. -/
structure HandlerOut : Type where
  state : ServerState
  cbs : List CbCall
  connCalls : List String

/-- ConnectorServer.connectionDisconnect. The outcome of the external
disconnect call on the connection is an oracle parameter. -/
def connectionDisconnect (s : ServerState)
    (disconnectResult : Except JSVal Unit) (connectionID : String) :
    HandlerOut :=
  match assocLookup s.connections connectionID with
  | none => ⟨s, errCb (serializerr (noConnectionError connectionID)), []⟩
  | some _ =>
    match disconnectResult with
    | .ok _ => ⟨s, [.cbSuccess0], ["disconnect"]⟩
    | .error e => ⟨s, errCb (serializerr e), ["disconnect"]⟩

/-- ConnectorServer.connectionLogin. The outcome of the external login call
and the freshly generated security context ID are oracle parameters; on
success the security context is stored under the fresh ID. -/
def connectionLogin (s : ServerState) (loginResult : Except JSVal Nat)
    (newID : String)
    (connectionID enrollmentID enrollmentSecret : String) : HandlerOut :=
  match assocLookup s.connections connectionID with
  | none => ⟨s, errCb (serializerr (noConnectionError connectionID)), []⟩
  | some _ =>
    match loginResult with
    | .ok sc =>
      ⟨⟨s.connections, assocUpsert s.securityContexts newID sc⟩,
        [.cbSuccess1 (.vString newID)], ["login"]⟩
    | .error e => ⟨s, errCb (serializerr e), ["login"]⟩

/-- ConnectorServer.connectionDeploy. The outcomes of the external archive
parse and of the deploy call on the connection are oracle parameters. -/
def connectionDeploy (s : ServerState)
    (fromArchiveResult : Except JSVal Unit)
    (deployResult : Except JSVal Unit)
    (connectionID securityContextID : String) (force : Bool)
    (businessNetworkBase64 : String) : HandlerOut :=
  match assocLookup s.connections connectionID with
  | none => ⟨s, errCb (serializerr (noConnectionError connectionID)), []⟩
  | some _ =>
    match assocLookup s.securityContexts securityContextID with
    | none =>
      ⟨s, errCb (serializerr (noSecurityContextError securityContextID)), []⟩
    | some _ =>
      match fromArchiveResult with
      | .error e => ⟨s, errCb (serializerr e), []⟩
      | .ok _ =>
        match deployResult with
        | .ok _ => ⟨s, [.cbSuccess0], ["deploy"]⟩
        | .error e => ⟨s, errCb (serializerr e), ["deploy"]⟩

/-- ConnectorServer.connectionUpdate. The outcomes of the external archive
parse and of the update call on the connection are oracle parameters. -/
def connectionUpdate (s : ServerState)
    (fromArchiveResult : Except JSVal Unit)
    (updateResult : Except JSVal Unit)
    (connectionID securityContextID : String)
    (businessNetworkBase64 : String) : HandlerOut :=
  match assocLookup s.connections connectionID with
  | none => ⟨s, errCb (serializerr (noConnectionError connectionID)), []⟩
  | some _ =>
    match assocLookup s.securityContexts securityContextID with
    | none =>
      ⟨s, errCb (serializerr (noSecurityContextError securityContextID)), []⟩
    | some _ =>
      match fromArchiveResult with
      | .error e => ⟨s, errCb (serializerr e), []⟩
      | .ok _ =>
        match updateResult with
        | .ok _ => ⟨s, [.cbSuccess0], ["update"]⟩
        | .error e => ⟨s, errCb (serializerr e), ["update"]⟩

/-- ConnectorServer.connectionUndeploy. The outcome of the undeploy call on
the connection is an oracle parameter. -/
def connectionUndeploy (s : ServerState)
    (undeployResult : Except JSVal Unit)
    (connectionID securityContextID businessNetworkIdentifier : String) :
    HandlerOut :=
  match assocLookup s.connections connectionID with
  | none => ⟨s, errCb (serializerr (noConnectionError connectionID)), []⟩
  | some _ =>
    match assocLookup s.securityContexts securityContextID with
    | none =>
      ⟨s, errCb (serializerr (noSecurityContextError securityContextID)), []⟩
    | some _ =>
      match undeployResult with
      | .ok _ => ⟨s, [.cbSuccess0], ["undeploy"]⟩
      | .error e => ⟨s, errCb (serializerr e), ["undeploy"]⟩

/-- ConnectorServer.connectionPing. The outcome of the ping call on the
connection is an oracle parameter; its result is passed to the success
callback. -/
def connectionPing (s : ServerState) (pingResult : Except JSVal JSVal)
    (connectionID securityContextID : String) : HandlerOut :=
  match assocLookup s.connections connectionID with
  | none => ⟨s, errCb (serializerr (noConnectionError connectionID)), []⟩
  | some _ =>
    match assocLookup s.securityContexts securityContextID with
    | none =>
      ⟨s, errCb (serializerr (noSecurityContextError securityContextID)), []⟩
    | some _ =>
      match pingResult with
      | .ok result => ⟨s, [.cbSuccess1 result], ["ping"]⟩
      | .error e => ⟨s, errCb (serializerr e), ["ping"]⟩

/-- ConnectorServer.connectionQueryChainCode. The outcome of the query call
on the connection is an oracle parameter, carried as the string form of the
result buffer that the handler passes to the success callback. -/
def connectionQueryChainCode (s : ServerState)
    (queryResult : Except JSVal String)
    (connectionID securityContextID functionName : String)
    (args : List String) : HandlerOut :=
  match assocLookup s.connections connectionID with
  | none => ⟨s, errCb (serializerr (noConnectionError connectionID)), []⟩
  | some _ =>
    match assocLookup s.securityContexts securityContextID with
    | none =>
      ⟨s, errCb (serializerr (noSecurityContextError securityContextID)), []⟩
    | some _ =>
      match queryResult with
      | .ok result =>
        ⟨s, [.cbSuccess1 (.vString result)], ["queryChainCode"]⟩
      | .error e => ⟨s, errCb (serializerr e), ["queryChainCode"]⟩

/-- ConnectorServer.connectionInvokeChainCode. The outcome of the invoke
call on the connection is an oracle parameter. -/
def connectionInvokeChainCode (s : ServerState)
    (invokeResult : Except JSVal Unit)
    (connectionID securityContextID functionName : String)
    (args : List String) : HandlerOut :=
  match assocLookup s.connections connectionID with
  | none => ⟨s, errCb (serializerr (noConnectionError connectionID)), []⟩
  | some _ =>
    match assocLookup s.securityContexts securityContextID with
    | none =>
      ⟨s, errCb (serializerr (noSecurityContextError securityContextID)), []⟩
    | some _ =>
      match invokeResult with
      | .ok _ => ⟨s, [.cbSuccess0], ["invokeChainCode"]⟩
      | .error e => ⟨s, errCb (serializerr e), ["invokeChainCode"]⟩

/-- ConnectorServer.connectionCreateIdentity. The outcome of the identity
creation call on the connection is an oracle parameter; its result is
passed to the success callback. -/
def connectionCreateIdentity (s : ServerState)
    (createResult : Except JSVal JSVal)
    (connectionID securityContextID userID : String) (options : JSVal) :
    HandlerOut :=
  match assocLookup s.connections connectionID with
  | none => ⟨s, errCb (serializerr (noConnectionError connectionID)), []⟩
  | some _ =>
    match assocLookup s.securityContexts securityContextID with
    | none =>
      ⟨s, errCb (serializerr (noSecurityContextError securityContextID)), []⟩
    | some _ =>
      match createResult with
      | .ok result => ⟨s, [.cbSuccess1 result], ["createIdentity"]⟩
      | .error e => ⟨s, errCb (serializerr e), ["createIdentity"]⟩

/-- The declared, set fields of a property bag restricted to a field list:
the identifying field is skipped and the remaining fields keep their set
values in declaration order. This is the specification of the property bag
reconstructed by the serializer round trip. -/
def restrictEntries (idf : Option String) (props : List (String × Value)) :
    List FieldDecl → List (String × Value)
  | [] => []
  | f :: fs =>
    if some f.name == idf then restrictEntries idf props fs
    else
      match assocLookup props f.name with
      | some v => (f.name, v) :: restrictEntries idf props fs
      | none => restrictEntries idf props fs

/-- The observable result every handler produces when the connection ID is
unknown: state unchanged, exactly one failure callback carrying the
serialized no-connection error, and no method invoked on any connection. -/
def noConnectionOut (s : ServerState) (connectionID : String) : HandlerOut :=
  ⟨s, [.cbFailure (realSerializerr "Error"
    ("No connection found with ID " ++ connectionID))], []⟩

/-- A sample declaration: an identifiable Customer with a string
identifier. -/
def customerDecl : ClassDeclaration :=
  ⟨"net", "Customer", none, [⟨"id", .pString, false⟩], false, some "id"⟩

/-- A sample declaration: an identifiable Order with a string status, a
relationship to Customer, an optional string array and an optional integer
amount. -/
def orderDecl : ClassDeclaration :=
  ⟨"net", "Order", none,
    [⟨"id", .pString, false⟩, ⟨"status", .pString, false⟩,
     ⟨"customer", .pRel "net" "Customer", false⟩,
     ⟨"tags", .pArr .pString, true⟩, ⟨"amount", .pInteger, true⟩],
    false, some "id"⟩

/-- A sample declaration: an abstract identifiable base type. -/
def abstractDecl : ClassDeclaration :=
  ⟨"net", "Base", none, [⟨"id", .pString, false⟩], true, some "id"⟩

/-- A sample declaration: a non-identifiable Address concept. -/
def addressDecl : ClassDeclaration :=
  ⟨"net", "Address", none, [⟨"city", .pString, false⟩], false, none⟩

/-- A sample populated Model Registry. -/
def sampleRegistry : Registry :=
  [customerDecl, orderDecl, abstractDecl, addressDecl]

/-- A sample validated Order resource with some declared fields set. -/
def sampleOrder : TypedInstance :=
  ⟨"net", "Order", .resource, "ORD-1",
    [("status", .vString "OPEN"),
     ("customer", .vRelationship "net" "Customer" "CUST-9")], true⟩

/-- The sample Order with every declared non-identifying field set to a
conformant value. -/
def sampleOrderFull : TypedInstance :=
  ⟨"net", "Order", .resource, "ORD-1",
    [("status", .vString "OPEN"),
     ("customer", .vRelationship "net" "Customer" "CUST-9"),
     ("tags", .vArray [.vString "a", .vString "b"]),
     ("amount", .vInteger 42)], true⟩

/-- The sample Order as an unvalidated (unchecked) instance. -/
def sampleOrderUnchecked : TypedInstance :=
  ⟨"net", "Order", .resource, "ORD-1",
    [("status", .vString "OPEN"),
     ("customer", .vRelationship "net" "Customer" "CUST-9")], false⟩

/-- The sample relationship instance produced by the factory for the
Customer type. -/
def sampleCustomerRel : TypedInstance :=
  ⟨"net", "Customer", .relationship, "CUST-9", [], false⟩

/-- ConnectorServer.connectionList. The outcome of the list call on the
connection is an oracle parameter; its result is passed to the success
callback. -/
def connectionList (s : ServerState) (listResult : Except JSVal JSVal)
    (connectionID securityContextID : String) : HandlerOut :=
  match assocLookup s.connections connectionID with
  | none => ⟨s, errCb (serializerr (noConnectionError connectionID)), []⟩
  | some _ =>
    match assocLookup s.securityContexts securityContextID with
    | none =>
      ⟨s, errCb (serializerr (noSecurityContextError securityContextID)), []⟩
    | some _ =>
      match listResult with
      | .ok result => ⟨s, [.cbSuccess1 result], ["list"]⟩
      | .error e => ⟨s, errCb (serializerr e), ["list"]⟩

end FabricComposer

namespace FabricComposer

mutual

/-- Serializing a conformant value and deserializing it against the same
declared type recovers the original value. -/
theorem fromJSONValue_toJSONValue (t : PropType) (v : Value)
    (h : conforms t v = true) : fromJSONValue t (toJSONValue v) = .ok v := by
  cases v with
  | vString s => cases t <;> simp_all [conforms, toJSONValue, fromJSONValue]
  | vInteger n => cases t <;> simp_all [conforms, toJSONValue, fromJSONValue]
  | vBoolean b => cases t <;> simp_all [conforms, toJSONValue, fromJSONValue]
  | vRelationship ns ty id =>
    cases t <;> simp_all [conforms, toJSONValue, fromJSONValue]
  | vArray vs =>
    cases t with
    | pArr et =>
      have hl := fromJSONList_toJSONList et vs (by simpa [conforms] using h)
      simp [toJSONValue, fromJSONValue, hl, Except.map]
    | pString => simp [conforms] at h
    | pInteger => simp [conforms] at h
    | pBoolean => simp [conforms] at h
    | pRel rns rty => simp [conforms] at h

/-- Elementwise round-trip for arrays of conformant values. -/
theorem fromJSONList_toJSONList (t : PropType) (vs : List Value)
    (h : conformsList t vs = true) : fromJSONList t (toJSONList vs) = .ok vs := by
  cases vs with
  | nil => simp [toJSONList, fromJSONList]
  | cons v rest =>
    have hc : conforms t v = true ∧ conformsList t rest = true := by
      simpa [conformsList, Bool.and_eq_true] using h
    have h1 := fromJSONValue_toJSONValue t v hc.1
    have h2 := fromJSONList_toJSONList t rest hc.2
    simp [toJSONList, fromJSONList, h1, h2]

end

/-- Association-list lookup after a cons step. -/
theorem assocLookup_cons {α : Type} (k1 : String) (v1 : α)
    (l : List (String × α)) (k : String) :
    assocLookup ((k1, v1) :: l) k =
      if k1 == k then some v1 else assocLookup l k := by
  by_cases h : (k1 == k) = true <;> simp [assocLookup, List.find?, h]

/-- A successful association-list lookup exhibits a member pair. -/
theorem assocLookup_mem {α : Type} {l : List (String × α)} {k : String}
    {v : α} (h : assocLookup l k = some v) : (k, v) ∈ l := by
  unfold assocLookup at h
  cases hf : List.find? (fun q => q.1 == k) l with
  | none => rw [hf] at h; cases h
  | some q =>
    rw [hf] at h
    have hm := List.mem_of_find?_eq_some hf
    have hq : (q.1 == k) = true := by
      have := List.find?_some hf
      simpa using this
    have hk : q.1 = k := by simpa using hq
    have hv : q.2 = v := by simpa using h
    have hqe : q = (k, v) := by
      cases q
      simp_all
    rwa [hqe] at hm

/-- Lookup after an upsert at the same key yields the new value. -/
theorem assocLookup_assocUpsert_self {α : Type} (l : List (String × α))
    (k : String) (v : α) : assocLookup (assocUpsert l k v) k = some v := by
  induction l with
  | nil => simp [assocUpsert, assocLookup, List.find?]
  | cons p rest ih =>
    obtain ⟨k1, v1⟩ := p
    by_cases h : (k1 == k) = true
    · simp [assocUpsert, h, assocLookup_cons]
    · simp [assocUpsert, h, assocLookup_cons, ih]

/-- In a registry whose fully-qualified names are distinct, the find step
of declaration resolution returns the registered declaration itself. -/
theorem find?_fqn_eq (reg : Registry) (d : ClassDeclaration)
    (hwf : (reg.map ClassDeclaration.fqn).Nodup) (hmem : d ∈ reg) :
    List.find? (fun x => x.fqn == d.fqn) reg = some d := by
  induction reg with
  | nil => cases hmem
  | cons hd tl ih =>
    rcases List.mem_cons.mp hmem with rfl | hmem2
    · simp [List.find?]
    · have hnotin : hd.fqn ∉ tl.map ClassDeclaration.fqn :=
        (List.nodup_cons.mp hwf).1
      have hne : (hd.fqn == d.fqn) = false := by
        rw [beq_eq_false_iff_ne]
        intro he
        exact hnotin (by
          rw [he]
          exact List.mem_map_of_mem _ hmem2)
      simp only [List.find?, hne]
      exact ih (List.nodup_cons.mp hwf).2 hmem2

/-- Boolean equality on optional strings reduces on two present values. -/
theorem some_beq_some (a b : String) : (some a == some b) = (a == b) := rfl

/-- A successful declaration resolution returns a declaration whose
fully-qualified name is the requested one. -/
theorem getClassDeclaration_fqn (reg : Registry) (n : String)
    (d : ClassDeclaration) (h : getClassDeclaration reg n = .ok d) :
    d.fqn = n := by
  unfold getClassDeclaration at h
  cases hf : List.find? (fun x => x.fqn == n) reg with
  | none => rw [hf] at h; cases h
  | some d2 =>
    rw [hf] at h
    injection h with h2
    subst h2
    have := List.find?_some hf
    simpa using this

/-- Splitting distinctness of field names at a cons step. -/
theorem nodup_name_cons (g : FieldDecl) (fs : List FieldDecl)
    (h : ((g :: fs).map FieldDecl.name).Nodup) :
    g.name ∉ fs.map FieldDecl.name ∧ (fs.map FieldDecl.name).Nodup := by
  rw [List.map_cons] at h
  exact ⟨(List.nodup_cons.mp h).1, (List.nodup_cons.mp h).2⟩

/-- In a field list whose names are distinct, two member fields with the
same name are the same field. -/
theorem nodup_field_name_inj (fs : List FieldDecl)
    (h : (fs.map FieldDecl.name).Nodup) (f g : FieldDecl) (hf : f ∈ fs)
    (hg : g ∈ fs) (he : f.name = g.name) : f = g := by
  induction fs with
  | nil => cases hf
  | cons f0 fs ih =>
    have hnotin := (List.nodup_cons.mp h).1
    rcases List.mem_cons.mp hf with rfl | hf2
    · rcases List.mem_cons.mp hg with rfl | hg2
      · rfl
      · exact absurd (by rw [he]; exact List.mem_map_of_mem _ hg2) hnotin
    · rcases List.mem_cons.mp hg with rfl | hg2
      · exact absurd (by rw [← he]; exact List.mem_map_of_mem _ hf2) hnotin
      · exact ih (List.nodup_cons.mp h).2 hf2 hg2

/-- Serialized entries contain no key outside the field names. -/
theorem serializeEntries_lookup_none (idf : Option String) (ident : String)
    (props : List (String × Value)) (fs : List FieldDecl) (nm : String)
    (hnot : ∀ f ∈ fs, f.name ≠ nm) :
    assocLookup (serializeEntries idf ident props fs) nm = none := by
  induction fs with
  | nil => rfl
  | cons f fs ih =>
    have hf : f.name ≠ nm := hnot f (List.mem_cons_self f fs)
    have hb : (f.name == nm) = false := by simpa using hf
    have hrest := ih (fun g hg => hnot g (List.mem_cons_of_mem f hg))
    simp only [serializeEntries]
    split
    · simp [assocLookup_cons, hb, hrest]
    · rcases hlp : assocLookup props f.name with _ | v <;> simp only [hlp]
      · exact hrest
      · simp [assocLookup_cons, hb, hrest]

/-- Looking up the identifying field in the serialized entries yields the
identifier of the instance, provided the identifying field is declared and
the field names are distinct. -/
theorem serializeEntries_lookup_idf (idf0 ident : String)
    (props : List (String × Value)) (fs : List FieldDecl)
    (hnodup : (fs.map FieldDecl.name).Nodup)
    (hmem : idf0 ∈ fs.map FieldDecl.name) :
    assocLookup (serializeEntries (some idf0) ident props fs) idf0 =
      some (.jstr ident) := by
  induction fs with
  | nil => cases hmem
  | cons f fs ih =>
    rcases List.mem_cons.mp hmem with heq | hmem2
    · have hcond : (some f.name == some idf0) = true := by
        rw [some_beq_some]
        simp [heq]
      simp only [serializeEntries, hcond, if_true]
      rw [assocLookup_cons]
      simp [heq]
    · have hf : f.name ≠ idf0 := by
        intro he
        rw [← he] at hmem2
        exact (nodup_name_cons f fs hnodup).1 hmem2
      have hcond : (some f.name == some idf0) = false := by
        rw [some_beq_some]
        simpa using hf
      have hb : (f.name == idf0) = false := by simpa using hf
      have ihr := ih (nodup_name_cons f fs hnodup).2 hmem2
      simp only [serializeEntries, hcond, Bool.false_eq_true, if_false]
      rcases hlp : assocLookup props f.name with _ | v <;> simp only [hlp]
      · exact ihr
      · simp [assocLookup_cons, hb, ihr]

/-- Looking up a declared non-identifying field in the serialized entries
yields the serialized property value exactly when the field is set. -/
theorem serializeEntries_lookup_field (idf : Option String) (ident : String)
    (props : List (String × Value)) (fs : List FieldDecl) (f : FieldDecl)
    (hnodup : (fs.map FieldDecl.name).Nodup) (hmem : f ∈ fs)
    (hnid : (some f.name == idf) = false) :
    assocLookup (serializeEntries idf ident props fs) f.name =
      (assocLookup props f.name).map toJSONValue := by
  induction fs with
  | nil => cases hmem
  | cons g fs ih =>
    by_cases hg : g.name = f.name
    · have hnotin : ∀ g2 ∈ fs, g2.name ≠ f.name := by
        intro g2 hg2 he
        refine (nodup_name_cons g fs hnodup).1 ?_
        rw [hg, ← he]
        exact List.mem_map_of_mem _ hg2
      simp only [serializeEntries, hg, hnid, Bool.false_eq_true, if_false]
      rcases hlp : assocLookup props f.name with _ | v <;> simp only [hlp]
      · rw [serializeEntries_lookup_none idf ident props fs f.name hnotin]
        rfl
      · rw [assocLookup_cons]
        simp
    · have hmem2 : f ∈ fs := by
        rcases List.mem_cons.mp hmem with rfl | h2
        · exact absurd rfl hg
        · exact h2
      have hb : (g.name == f.name) = false := by simpa using hg
      have ihr := ih (nodup_name_cons g fs hnodup).2 hmem2
      simp only [serializeEntries]
      split
      · simp [assocLookup_cons, hb, ihr]
      · rcases hlp : assocLookup props g.name with _ | v <;> simp only [hlp]
        · exact ihr
        · simp [assocLookup_cons, hb, ihr]

/-- Deserializing the serialized entries of a conformant property bag
reconstructs exactly the declared, set, non-identifying properties. -/
theorem deserializeEntries_eq (idf : Option String)
    (kvs : List (String × Json)) (props : List (String × Value))
    (fs : List FieldDecl)
    (hlk : ∀ f ∈ fs, (some f.name == idf) = false →
      assocLookup kvs f.name = (assocLookup props f.name).map toJSONValue)
    (hconf : ∀ f ∈ fs, ∀ v, assocLookup props f.name = some v →
      conforms f.ftype v = true) :
    deserializeEntries idf kvs fs = .ok (restrictEntries idf props fs) := by
  induction fs with
  | nil => rfl
  | cons f fs ih =>
    have ihr := ih (fun g hg => hlk g (List.mem_cons_of_mem f hg))
      (fun g hg => hconf g (List.mem_cons_of_mem f hg))
    simp only [deserializeEntries, restrictEntries, ihr]
    by_cases hid : (some f.name == idf) = true
    · simp [hid]
    · have hid2 : (some f.name == idf) = false := by simpa using hid
      have hl := hlk f (List.mem_cons_self f fs) hid2
      rcases hlp : assocLookup props f.name with _ | v
      · rw [hlp] at hl
        simp [hid2, hl, hlp]
      · rw [hlp] at hl
        have hc := hconf f (List.mem_cons_self f fs) v hlp
        have hrt := fromJSONValue_toJSONValue f.ftype v hc
        simp [hid2, hl, hlp, hrt]

/-- The restricted property bag contains no key outside the field names. -/
theorem restrictEntries_lookup_none (idf : Option String)
    (props : List (String × Value)) (fs : List FieldDecl) (nm : String)
    (hnot : ∀ f ∈ fs, f.name ≠ nm) :
    assocLookup (restrictEntries idf props fs) nm = none := by
  induction fs with
  | nil => rfl
  | cons f fs ih =>
    have hf : f.name ≠ nm := hnot f (List.mem_cons_self f fs)
    have hb : (f.name == nm) = false := by simpa using hf
    have hrest := ih (fun g hg => hnot g (List.mem_cons_of_mem f hg))
    simp only [restrictEntries]
    split
    · exact hrest
    · rcases hlp : assocLookup props f.name with _ | v <;> simp only [hlp]
      · exact hrest
      · simp [assocLookup_cons, hb, hrest]

/-- Looking up a declared non-identifying field in the restricted property
bag agrees with the original property bag. -/
theorem restrictEntries_lookup (idf : Option String)
    (props : List (String × Value)) (fs : List FieldDecl) (f : FieldDecl)
    (hnodup : (fs.map FieldDecl.name).Nodup) (hmem : f ∈ fs)
    (hnid : (some f.name == idf) = false) :
    assocLookup (restrictEntries idf props fs) f.name =
      assocLookup props f.name := by
  induction fs with
  | nil => cases hmem
  | cons g fs ih =>
    by_cases hg : g.name = f.name
    · have hnotin : ∀ g2 ∈ fs, g2.name ≠ f.name := by
        intro g2 hg2 he
        refine (nodup_name_cons g fs hnodup).1 ?_
        rw [hg, ← he]
        exact List.mem_map_of_mem _ hg2
      simp only [restrictEntries, hg, hnid, Bool.false_eq_true, if_false]
      rcases hlp : assocLookup props f.name with _ | v <;> simp only [hlp]
      · rw [restrictEntries_lookup_none idf props fs f.name hnotin]
      · rw [assocLookup_cons]
        simp
    · have hmem2 : f ∈ fs := by
        rcases List.mem_cons.mp hmem with rfl | h2
        · exact absurd rfl hg
        · exact h2
      have hb : (g.name == f.name) = false := by simpa using hg
      have ihr := ih (nodup_name_cons g fs hnodup).2 hmem2
      simp only [restrictEntries]
      split
      · exact ihr
      · rcases hlp : assocLookup props g.name with _ | v <;> simp only [hlp]
        · exact ihr
        · simp [assocLookup_cons, hb, ihr]

/-- The serialized entries carry exactly one entry per declared field when
every non-identifying field is set. -/
theorem serializeEntries_keys (idf0 ident : String)
    (props : List (String × Value)) (fs : List FieldDecl)
    (hall : ∀ f ∈ fs, f.name ≠ idf0 →
      (assocLookup props f.name).isSome = true) :
    (serializeEntries (some idf0) ident props fs).map Prod.fst =
      fs.map FieldDecl.name := by
  induction fs with
  | nil => rfl
  | cons f fs ih =>
    have ihr := ih (fun g hg => hall g (List.mem_cons_of_mem f hg))
    by_cases hid : f.name = idf0
    · have hcond : (some f.name == some idf0) = true := by
        rw [some_beq_some]
        simp [hid]
      simp only [serializeEntries, hcond, if_true, List.map_cons, ihr]
    · have hcond : (some f.name == some idf0) = false := by
        rw [some_beq_some]
        simpa using hid
      have hs := hall f (List.mem_cons_self f fs) hid
      obtain ⟨v, hv⟩ := Option.isSome_iff_exists.mp hs
      simp only [serializeEntries, hcond, Bool.false_eq_true, if_false, hv,
        List.map_cons, ihr]

/-- Every declared, set, non-identifying field contributes its serialized
entry to the serialized entries. -/
theorem serializeEntries_mem (idf : Option String) (ident : String)
    (props : List (String × Value)) (fs : List FieldDecl) (f : FieldDecl)
    (v : Value) (hmem : f ∈ fs) (hnid : (some f.name == idf) = false)
    (hlp : assocLookup props f.name = some v) :
    (f.name, toJSONValue v) ∈ serializeEntries idf ident props fs := by
  induction fs with
  | nil => cases hmem
  | cons g fs ih =>
    rcases List.mem_cons.mp hmem with rfl | hmem2
    · simp only [serializeEntries, hnid, Bool.false_eq_true, if_false, hlp]
      exact List.mem_cons_self _ _
    · have ihr := ih hmem2
      simp only [serializeEntries]
      split
      · exact List.mem_cons_of_mem _ ihr
      · rcases hlp2 : assocLookup props g.name with _ | w <;>
          simp only [hlp2]
        · exact ihr
        · exact List.mem_cons_of_mem _ ihr

/-- Claim C2: for every declaration D registered in a well-formed Model
Registry, resolving the fully-qualified name of D returns a declaration
equal to D, and resolving a name with no registered declaration fails with
a TypeNotFound error. The resolution function is pure, so it has no side
effects by construction. -/
theorem claim_C2 (reg : Registry) (d : ClassDeclaration) (n : String) :
    (wellFormedRegistry reg → d ∈ reg →
      getClassDeclaration reg d.fqn = .ok d) ∧
    ((∀ d2 ∈ reg, ClassDeclaration.fqn d2 ≠ n) →
      getClassDeclaration reg n = .error (.typeNotFound n)) := by
  constructor
  · intro hwf hmem
    unfold getClassDeclaration
    rw [find?_fqn_eq reg d hwf hmem]
  · intro hall
    unfold getClassDeclaration
    have hn : List.find? (fun x => x.fqn == n) reg = none :=
      List.find?_eq_none.mpr (fun x hx => by simpa using hall x hx)
    rw [hn]

/-- Witness for claim C2 on the sample registry. -/
theorem claim_C2_witness :
    getClassDeclaration sampleRegistry (ClassDeclaration.fqn orderDecl) =
      .ok orderDecl ∧
    getClassDeclaration sampleRegistry "nonexistent.Type" =
      .error (.typeNotFound "nonexistent.Type") :=
  ⟨(claim_C2 sampleRegistry orderDecl "nonexistent.Type").1 (by decide)
      (by decide),
   (claim_C2 sampleRegistry orderDecl "nonexistent.Type").2 (by decide)⟩

/-- Claim C3: for an identifiable, concrete, registered declaration, the
factory returns a Resource with the resource discriminator, not the
relationship discriminator, and the requested identifier; construction
fails when the type is not registered, is abstract, or is not
identifiable. -/
theorem claim_C3 (reg : Registry) (ns tyName id : String) (validate : Bool)
    (d : ClassDeclaration) (e : CError) (idf : String) :
    (getClassDeclaration reg (ns ++ "." ++ tyName) = .ok d →
      d.isAbstract = false → d.idField = some idf →
      ∃ r, newResource reg ns tyName id validate = .ok r ∧
        isResource r = true ∧ isRelationship r = false ∧
        getIdentifier r = id) ∧
    (getClassDeclaration reg (ns ++ "." ++ tyName) = .error e →
      newResource reg ns tyName id validate = .error e) ∧
    (getClassDeclaration reg (ns ++ "." ++ tyName) = .ok d →
      d.isAbstract = true →
      newResource reg ns tyName id validate =
        .error (.abstractType (ns ++ "." ++ tyName))) ∧
    (getClassDeclaration reg (ns ++ "." ++ tyName) = .ok d →
      d.isAbstract = false → d.idField = none →
      newResource reg ns tyName id validate =
        .error (.notIdentifiable (ns ++ "." ++ tyName))) := by
  refine ⟨?_, ?_, ?_, ?_⟩
  · intro hok habs hid
    refine ⟨⟨ns, tyName, .resource, id, [], validate⟩, ?_, rfl, rfl, rfl⟩
    simp [newResource, hok, habs, hid]
  · intro herr
    simp [newResource, herr]
  · intro hok habs
    simp [newResource, hok, habs]
  · intro hok habs hid
    simp [newResource, hok, habs, hid]

/-- Witness for claim C3 on the sample registry: success on the concrete
identifiable Order, failure on a non-identifiable concept, an abstract
declaration and an unregistered type. -/
theorem claim_C3_witness :
    (∃ r, newResource sampleRegistry "net" "Order" "ORD-1" true = .ok r ∧
      isResource r = true ∧ isRelationship r = false ∧
      getIdentifier r = "ORD-1") ∧
    newResource sampleRegistry "net" "Base" "B-1" true =
      .error (.abstractType "net.Base") ∧
    newResource sampleRegistry "net" "Address" "A-1" true =
      .error (.notIdentifiable "net.Address") ∧
    newResource sampleRegistry "net" "Nope" "N-1" true =
      .error (.typeNotFound "net.Nope") :=
  ⟨(claim_C3 sampleRegistry "net" "Order" "ORD-1" true orderDecl
      (CError.typeNotFound "net.Nope") "id").1 rfl rfl rfl,
   (claim_C3 sampleRegistry "net" "Base" "B-1" true abstractDecl
      (CError.typeNotFound "net.Nope") "id").2.2.1 rfl rfl,
   (claim_C3 sampleRegistry "net" "Address" "A-1" true addressDecl
      (CError.typeNotFound "net.Nope") "id").2.2.2 rfl rfl rfl,
   (claim_C3 sampleRegistry "net" "Nope" "N-1" true addressDecl
      (CError.typeNotFound "net.Nope") "id").2.1 rfl⟩

/-- Claim C4: a factory-constructed Relationship has the relationship
discriminator and carries nothing beyond the (namespace, type, identifier)
reference triple: its property bag is empty, and neither property mutation
ever adds field data to it; both are rejected as caller errors. -/
theorem claim_C4 (reg : Registry) (ns tyName id : String)
    (rel : TypedInstance)
    (h : newRelationship reg ns tyName id = .ok rel) :
    isRelationship rel = true ∧ rel.ns = ns ∧ rel.typeName = tyName ∧
    rel.identifier = id ∧ rel.props = [] ∧
    (∀ nm v, setPropertyValue reg rel nm v =
      .error (.relationshipModified nm)) ∧
    (∀ nm v, addArrayValue reg rel nm v =
      .error (.relationshipModified nm)) := by
  have hrel : rel = ⟨ns, tyName, .relationship, id, [], false⟩ := by
    cases hg : getClassDeclaration reg (ns ++ "." ++ tyName) with
    | error e => simp [newRelationship, hg] at h
    | ok d =>
      cases hid : d.idField with
      | none => simp [newRelationship, hg, hid] at h
      | some i =>
        simp [newRelationship, hg, hid] at h
        exact h.symm
  subst hrel
  refine ⟨rfl, rfl, rfl, rfl, rfl, ?_, ?_⟩
  · intro nm v
    rfl
  · intro nm v
    rfl

/-- Witness for claim C4 on the sample registry. -/
theorem claim_C4_witness :
    isRelationship sampleCustomerRel = true ∧
    sampleCustomerRel.ns = "net" ∧
    sampleCustomerRel.typeName = "Customer" ∧
    sampleCustomerRel.identifier = "CUST-9" ∧
    sampleCustomerRel.props = [] ∧
    (∀ nm v, setPropertyValue sampleRegistry sampleCustomerRel nm v =
      .error (.relationshipModified nm)) ∧
    (∀ nm v, addArrayValue sampleRegistry sampleCustomerRel nm v =
      .error (.relationshipModified nm)) :=
  claim_C4 sampleRegistry "net" "Customer" "CUST-9" sampleCustomerRel rfl

/-- Claim C5: setting a field that is declared neither on the Class
Declaration of the instance nor anywhere along its supertype chain fails
with UnknownField on a validated Resource, while the same call on an
unvalidated Resource succeeds and the value is subsequently retrievable. -/
theorem claim_C5 (reg : Registry) (r : TypedInstance) (d : ClassDeclaration)
    (nm : String) (v : Value)
    (hk : r.kind = Kind.resource)
    (hd : getClassDeclaration reg (getFullyQualifiedType r) = .ok d)
    (hundecl : ∀ f ∈ allFields reg d, f.name ≠ nm) :
    (r.validated = true →
      setPropertyValue reg r nm v = .error (.unknownField nm)) ∧
    (r.validated = false →
      ∃ r2, setPropertyValue reg r nm v = .ok r2 ∧
        getPropertyValue r2 nm = some v) := by
  have hfind : List.find? (fun f => f.name == nm) (allFields reg d) = none :=
    List.find?_eq_none.mpr (fun f hf => by simpa using hundecl f hf)
  constructor
  · intro hv
    simp [setPropertyValue, hk, hv, hd, hfind]
  · intro hv
    refine ⟨{ r with props := assocUpsert r.props nm v }, ?_, ?_⟩
    · simp [setPropertyValue, hk, hv]
    · simp [getPropertyValue, assocLookup_assocUpsert_self]

/-- Witness for claim C5: the undeclared field bogus on the validated and
on the unvalidated sample Order. -/
theorem claim_C5_witness :
    setPropertyValue sampleRegistry sampleOrder "bogus" (.vString "x") =
      .error (.unknownField "bogus") ∧
    (∃ r2, setPropertyValue sampleRegistry sampleOrderUnchecked "bogus"
        (.vString "x") = .ok r2 ∧
      getPropertyValue r2 "bogus" = some (.vString "x")) :=
  ⟨(claim_C5 sampleRegistry sampleOrder orderDecl "bogus" (.vString "x")
      rfl rfl (by decide)).1 rfl,
   (claim_C5 sampleRegistry sampleOrderUnchecked orderDecl "bogus"
      (.vString "x") rfl rfl (by decide)).2 rfl⟩

/-- Claim C6: the three validation failure kinds UnknownField,
TypeMismatch and MissingRequiredField are programmatically
distinguishable, and setting a string value on a field declared with the
numeric type on a validated instance fails with TypeMismatch. -/
theorem claim_C6 (reg : Registry) (r : TypedInstance) (d : ClassDeclaration)
    (f : FieldDecl) (nm s : String)
    (hk : r.kind = Kind.resource) (hv : r.validated = true)
    (hd : getClassDeclaration reg (getFullyQualifiedType r) = .ok d)
    (hf : List.find? (fun g => g.name == nm) (allFields reg d) = some f)
    (hnum : f.ftype = PropType.pInteger) :
    (∀ a b : String,
      CError.unknownField a ≠ CError.typeMismatch b ∧
      CError.unknownField a ≠ CError.missingRequiredField b ∧
      CError.typeMismatch a ≠ CError.missingRequiredField b) ∧
    setPropertyValue reg r nm (.vString s) = .error (.typeMismatch nm) := by
  constructor
  · intro a b
    refine ⟨?_, ?_, ?_⟩ <;> intro h <;> exact CError.noConfusion h
  · have hcf : conforms f.ftype (Value.vString s) = false := by
      rw [hnum]
      simp [conforms]
    simp [setPropertyValue, hk, hv, hd, hf, hcf]

/-- Witness for claim C6: a string written to the integer amount field of
the validated sample Order. -/
theorem claim_C6_witness :
    setPropertyValue sampleRegistry sampleOrder "amount" (.vString "oops") =
      .error (.typeMismatch "amount") :=
  (claim_C6 sampleRegistry sampleOrder orderDecl
    ⟨"amount", .pInteger, true⟩ "amount" "oops" rfl rfl rfl rfl rfl).2

/-- The successful effect of a core operation never changes the registry
component of the session state. -/
theorem applyOp_registry (s : SessionState) (op : FOp) (s2 : SessionState)
    (h : applyOp s op = .ok s2) : s2.registry = s.registry := by
  cases op <;> simp only [applyOp] at h <;> repeat' split at h
  all_goals cases h <;> rfl

/-- Claim C8: a core operation that fails leaves the session state, the
Model Registry and every previously constructed instance exactly as they
were, and every operation, failing or not, leaves the Model Registry
unchanged; the failure is the synchronously returned error component, so
it is surfaced to the caller rather than retried or fatal. -/
theorem claim_C8 (s : SessionState) (op : FOp) (e : CError)
    (h : (runOp s op).2 = .error e) :
    (runOp s op).1 = s ∧
    ∀ op2 : FOp, (runOp s op2).1.registry = s.registry := by
  constructor
  · cases happ : applyOp s op with
    | ok s2 => simp [runOp, happ] at h
    | error e2 => simp [runOp, happ]
  · intro op2
    cases happ : applyOp s op2 with
    | error e2 => simp [runOp, happ]
    | ok s2 =>
      simp [runOp, happ]
      exact applyOp_registry s op2 s2 happ

/-- Witness for claim C8: constructing a resource of an unregistered type
fails and leaves the session state untouched. -/
theorem claim_C8_witness :
    (runOp ⟨sampleRegistry, []⟩
      (.opNewResource "net" "Nope" "x" true)).1 = ⟨sampleRegistry, []⟩ ∧
    ∀ op2 : FOp,
      (runOp ⟨sampleRegistry, []⟩ op2).1.registry = sampleRegistry :=
  claim_C8 ⟨sampleRegistry, []⟩ (.opNewResource "net" "Nope" "x" true)
    (.typeNotFound "net.Nope") rfl

/-- Claim C9: every connector server handler keyed by a connection ID,
given an ID with no entry in the connections map, invokes the callback
exactly once with the serialized no-connection error, calls no method on
any connection, and leaves the connections and security contexts maps
unchanged. -/
theorem claim_C9 (s : ServerState) (connectionID : String)
    (dres ires fres1 dpres fres2 upres undres : Except JSVal Unit)
    (lres : Except JSVal Nat) (pres cres lsres : Except JSVal JSVal)
    (qres : Except JSVal String)
    (newID enrollmentID enrollmentSecret securityContextID bn64 bni
      functionName userID : String)
    (force : Bool) (args : List String) (options : JSVal)
    (hnone : assocLookup s.connections connectionID = none) :
    connectionDisconnect s dres connectionID =
      noConnectionOut s connectionID ∧
    connectionLogin s lres newID connectionID enrollmentID
      enrollmentSecret = noConnectionOut s connectionID ∧
    connectionDeploy s fres1 dpres connectionID securityContextID force
      bn64 = noConnectionOut s connectionID ∧
    connectionUpdate s fres2 upres connectionID securityContextID bn64 =
      noConnectionOut s connectionID ∧
    connectionUndeploy s undres connectionID securityContextID bni =
      noConnectionOut s connectionID ∧
    connectionPing s pres connectionID securityContextID =
      noConnectionOut s connectionID ∧
    connectionQueryChainCode s qres connectionID securityContextID
      functionName args = noConnectionOut s connectionID ∧
    connectionInvokeChainCode s ires connectionID securityContextID
      functionName args = noConnectionOut s connectionID ∧
    connectionCreateIdentity s cres connectionID securityContextID
      userID options = noConnectionOut s connectionID ∧
    connectionList s lsres connectionID securityContextID =
      noConnectionOut s connectionID ∧
    (noConnectionOut s connectionID).state = s ∧
    (noConnectionOut s connectionID).cbs.length = 1 ∧
    (noConnectionOut s connectionID).connCalls = [] := by
  refine ⟨?_, ?_, ?_, ?_, ?_, ?_, ?_, ?_, ?_, ?_, rfl, rfl, rfl⟩ <;>
    simp [connectionDisconnect, connectionLogin, connectionDeploy,
      connectionUpdate, connectionUndeploy, connectionPing,
      connectionQueryChainCode, connectionInvokeChainCode,
      connectionCreateIdentity, connectionList, hnone, errCb, serializerr,
      noConnectionError, noConnectionOut, realSerializerr]

/-- Witness for claim C9: two handlers on an empty server state. -/
theorem claim_C9_witness :
    connectionDisconnect ⟨[], []⟩ (.ok ()) "conn-1" =
      noConnectionOut ⟨[], []⟩ "conn-1" ∧
    connectionPing ⟨[], []⟩ (.ok JSVal.vNull) "conn-1" "sc-1" =
      noConnectionOut ⟨[], []⟩ "conn-1" :=
  have h := claim_C9 ⟨[], []⟩ "conn-1" (.ok ()) (.ok ()) (.ok ()) (.ok ())
    (.ok ()) (.ok ()) (.ok ()) (.ok 0) (.ok JSVal.vNull) (.ok JSVal.vNull)
    (.ok JSVal.vNull) (.ok "r") "sc-new" "eid" "esec" "sc-1" "b64" "bni"
    "fn" "uid" false [] JSVal.vNull rfl
  ⟨h.1, h.2.2.2.2.2.1⟩

/-- Counterexample to claim C10 as stated: the serializerr wrapper is not
total over all inputs. On a null rejection value the toString call inside
the non-Error branch throws a TypeError, so no serialized error object is
produced. -/
theorem claim_C10_counterexample :
    serializerr JSVal.vNull =
      .error (.vError "TypeError" "Cannot read properties of null") := rfl

/-- Claim C10 (amended): for every value other than null and undefined,
the serializerr wrapper returns a serialized error object exposing a name
and a message: an Error instance is serialized directly, any other value
is serialized as a new Error built from its string form, and the result is
never a raw string. -/
theorem claim_C10 (v : JSVal) (h1 : v ≠ JSVal.vNull)
    (h2 : v ≠ JSVal.vUndefined) :
    (∃ n m, serializerr v = .ok (realSerializerr n m)) ∧
    (∀ n m, v = JSVal.vError n m →
      serializerr v = .ok (realSerializerr n m)) ∧
    (isErrorInstance v = false → ∀ s, jsToString v = .ok s →
      serializerr v = .ok (realSerializerr "Error" s)) ∧
    (∀ s, serializerr v ≠ .ok (.vString s)) := by
  cases v with
  | vNull => exact absurd rfl h1
  | vUndefined => exact absurd rfl h2
  | vBoolean b =>
    refine ⟨⟨"Error", if b then "true" else "false", rfl⟩, ?_, ?_, ?_⟩
    · intro n m he
      exact JSVal.noConfusion he
    · intro _ s hs
      injection hs with hs2
      rw [← hs2]
      rfl
    · intro s h
      simp [serializerr, jsToString, realSerializerr] at h
  | vNumber n =>
    refine ⟨⟨"Error", toString n, rfl⟩, ?_, ?_, ?_⟩
    · intro n2 m he
      exact JSVal.noConfusion he
    · intro _ s hs
      injection hs with hs2
      rw [← hs2]
      rfl
    · intro s h
      simp [serializerr, jsToString, realSerializerr] at h
  | vString str =>
    refine ⟨⟨"Error", str, rfl⟩, ?_, ?_, ?_⟩
    · intro n m he
      exact JSVal.noConfusion he
    · intro _ s hs
      injection hs with hs2
      rw [← hs2]
      rfl
    · intro s h
      simp [serializerr, jsToString, realSerializerr] at h
  | vError n m =>
    refine ⟨⟨n, m, rfl⟩, ?_, ?_, ?_⟩
    · intro n2 m2 he
      cases he
      rfl
    · intro hf
      simp [isErrorInstance] at hf
    · intro s h
      simp [serializerr, realSerializerr] at h
  | vObj fs =>
    refine ⟨⟨"Error", "[object Object]", rfl⟩, ?_, ?_, ?_⟩
    · intro n m he
      exact JSVal.noConfusion he
    · intro _ s hs
      injection hs with hs2
      rw [← hs2]
      rfl
    · intro s h
      simp [serializerr, jsToString, realSerializerr] at h

/-- Claim C1: serializing a validated Resource whose set fields are all
declared, non-identifying and type-conformant, and deserializing the
result, yields a Resource with the same fully-qualified type, the same
identifier and the same declared field values; under the default options a
relationship-valued field passes through the round trip as the stub with
the declared target type and the original identifier, which conformance
makes equal to the original value. -/
theorem claim_C1 (reg : Registry) (r : TypedInstance) (d : ClassDeclaration)
    (idf : String)
    (hd : getClassDeclaration reg (getFullyQualifiedType r) = .ok d)
    (hk : r.kind = Kind.resource)
    (hid : d.idField = some idf)
    (hidmem : idf ∈ (allFields reg d).map FieldDecl.name)
    (hnodup : ((allFields reg d).map FieldDecl.name).Nodup)
    (hnoclass : ∀ f ∈ allFields reg d, f.name ≠ "$class")
    (hset : ∀ p ∈ r.props, ∃ f ∈ allFields reg d,
      f.name = p.1 ∧ p.1 ≠ idf ∧ conforms f.ftype p.2 = true) :
    ∃ j r2, toJSON reg r = .ok j ∧ fromJSON reg j = .ok r2 ∧
      isResource r2 = true ∧
      getFullyQualifiedType r2 = getFullyQualifiedType r ∧
      getIdentifier r2 = getIdentifier r ∧
      ∀ f ∈ allFields reg d, f.name ≠ idf →
        getPropertyValue r2 f.name = getPropertyValue r f.name := by
  have hkrel : (r.kind == Kind.relationship) = false := by rw [hk]; rfl
  have htj : toJSON reg r = .ok (.jobj
      (("$class", .jstr (getFullyQualifiedType r)) ::
        serializeEntries (some idf) r.identifier r.props
          (allFields reg d))) := by
    rw [← hid]
    simp [toJSON, hd, hkrel]
  obtain ⟨f0, hf0mem, hf0name⟩ := List.mem_map.mp hidmem
  have hidclass : idf ≠ "$class" := by
    rw [← hf0name]
    exact hnoclass f0 hf0mem
  have hclassb : ∀ f ∈ allFields reg d, ("$class" == f.name) = false := by
    intro f hf
    exact beq_eq_false_iff_ne.mpr fun he => hnoclass f hf he.symm
  have hlk : ∀ f ∈ allFields reg d, (some f.name == some idf) = false →
      assocLookup (("$class", Json.jstr (getFullyQualifiedType r)) ::
        serializeEntries (some idf) r.identifier r.props (allFields reg d))
        f.name = (assocLookup r.props f.name).map toJSONValue := by
    intro f hf hneq
    rw [assocLookup_cons]
    simp only [hclassb f hf, Bool.false_eq_true, if_false]
    exact serializeEntries_lookup_field (some idf) r.identifier r.props
      (allFields reg d) f hnodup hf hneq
  have hconf : ∀ f ∈ allFields reg d, ∀ v,
      assocLookup r.props f.name = some v → conforms f.ftype v = true := by
    intro f hf v hlp
    obtain ⟨f2, hf2mem, hf2name, _, hf2conf⟩ :=
      hset (f.name, v) (assocLookup_mem hlp)
    have he : f2 = f :=
      nodup_field_name_inj (allFields reg d) hnodup f2 f hf2mem hf hf2name
    rw [he] at hf2conf
    exact hf2conf
  have hdes : deserializeEntries (some idf)
      (("$class", Json.jstr (getFullyQualifiedType r)) ::
        serializeEntries (some idf) r.identifier r.props (allFields reg d))
      (allFields reg d) =
      .ok (restrictEntries (some idf) r.props (allFields reg d)) :=
    deserializeEntries_eq (some idf) _ r.props (allFields reg d) hlk hconf
  have hident : assocLookup
      (("$class", Json.jstr (getFullyQualifiedType r)) ::
        serializeEntries (some idf) r.identifier r.props (allFields reg d))
      idf = some (.jstr r.identifier) := by
    rw [assocLookup_cons]
    have hb : ("$class" == idf) = false :=
      beq_eq_false_iff_ne.mpr (Ne.symm hidclass)
    simp only [hb, Bool.false_eq_true, if_false]
    exact serializeEntries_lookup_idf idf r.identifier r.props
      (allFields reg d) hnodup hidmem
  have hclass : assocLookup
      (("$class", Json.jstr (getFullyQualifiedType r)) ::
        serializeEntries (some idf) r.identifier r.props (allFields reg d))
      "$class" = some (.jstr (getFullyQualifiedType r)) := by
    rw [assocLookup_cons]
    simp
  have hfj : fromJSON reg (.jobj
      (("$class", .jstr (getFullyQualifiedType r)) ::
        serializeEntries (some idf) r.identifier r.props
          (allFields reg d))) =
      .ok ⟨d.ns, d.name, Kind.resource, r.identifier,
        restrictEntries (some idf) r.props (allFields reg d), true⟩ := by
    simp [fromJSON, hclass, hd, hid, hdes, hident]
  refine ⟨_, _, htj, hfj, rfl, ?_, rfl, ?_⟩
  · exact getClassDeclaration_fqn reg _ d hd
  · intro f hf hneq
    have hnid : (some f.name == some idf) = false := by
      rw [some_beq_some]
      simpa using hneq
    exact restrictEntries_lookup (some idf) r.props (allFields reg d) f
      hnodup hf hnid

/-- Witness for claim C1: the fully populated sample Order round-trips
through toJSON and fromJSON. -/
theorem claim_C1_witness :
    ∃ j r2, toJSON sampleRegistry sampleOrderFull = .ok j ∧
      fromJSON sampleRegistry j = .ok r2 ∧
      isResource r2 = true ∧
      getFullyQualifiedType r2 = getFullyQualifiedType sampleOrderFull ∧
      getIdentifier r2 = getIdentifier sampleOrderFull ∧
      ∀ f ∈ allFields sampleRegistry orderDecl, f.name ≠ "id" →
        getPropertyValue r2 f.name =
          getPropertyValue sampleOrderFull f.name :=
  claim_C1 sampleRegistry sampleOrderFull orderDecl "id" rfl rfl rfl
    (by decide) (by decide) (by decide) (by decide)

/-- Claim C7: serializing a Resource with default options yields an object
whose head entry is the class tag holding the fully-qualified type name,
followed by one entry per declared field when all are set; every set
declared field contributes its serialized value, a relationship value is
emitted as the plain identifier string of the referenced resource, and an
array value is emitted elementwise preserving order. -/
theorem claim_C7 (reg : Registry) (r : TypedInstance) (d : ClassDeclaration)
    (idf : String)
    (hd : getClassDeclaration reg (getFullyQualifiedType r) = .ok d)
    (hk : r.kind = Kind.resource)
    (hid : d.idField = some idf)
    (hall : ∀ f ∈ allFields reg d, f.name ≠ idf →
      (assocLookup r.props f.name).isSome = true) :
    ∃ entries, toJSON reg r = .ok (.jobj
        (("$class", .jstr (getFullyQualifiedType r)) :: entries)) ∧
      entries.map Prod.fst = (allFields reg d).map FieldDecl.name ∧
      (∀ f ∈ allFields reg d, ∀ v, f.name ≠ idf →
        assocLookup r.props f.name = some v →
        (f.name, toJSONValue v) ∈ entries) ∧
      (∀ ns2 ty2 i, toJSONValue (.vRelationship ns2 ty2 i) = .jstr i) ∧
      (∀ vs, toJSONValue (.vArray vs) = .jarr (toJSONList vs)) := by
  have hkrel : (r.kind == Kind.relationship) = false := by rw [hk]; rfl
  refine ⟨serializeEntries (some idf) r.identifier r.props (allFields reg d),
    ?_, ?_, ?_, ?_, ?_⟩
  · rw [← hid]
    simp [toJSON, hd, hkrel]
  · exact serializeEntries_keys idf r.identifier r.props (allFields reg d)
      hall
  · intro f hf v hneq hlp
    refine serializeEntries_mem (some idf) r.identifier r.props
      (allFields reg d) f v hf ?_ hlp
    rw [some_beq_some]
    simpa using hneq
  · intro ns2 ty2 i
    rfl
  · intro vs
    rfl

/-- Witness for claim C7: the serialized shape of the fully populated
sample Order. -/
theorem claim_C7_witness :
    ∃ entries, toJSON sampleRegistry sampleOrderFull = .ok (.jobj
        (("$class",
          .jstr (getFullyQualifiedType sampleOrderFull)) :: entries)) ∧
      entries.map Prod.fst =
        (allFields sampleRegistry orderDecl).map FieldDecl.name ∧
      (∀ f ∈ allFields sampleRegistry orderDecl, ∀ v, f.name ≠ "id" →
        assocLookup sampleOrderFull.props f.name = some v →
        (f.name, toJSONValue v) ∈ entries) ∧
      (∀ ns2 ty2 i, toJSONValue (.vRelationship ns2 ty2 i) = .jstr i) ∧
      (∀ vs, toJSONValue (.vArray vs) = .jarr (toJSONList vs)) :=
  claim_C7 sampleRegistry sampleOrderFull orderDecl "id" rfl rfl rfl
    (by decide)

/-- Witness for claim C10 (amended) at a raw string input, the case the
wrapper exists for. -/
theorem claim_C10_witness :
    (∃ n m, serializerr (JSVal.vString "oops") =
      .ok (realSerializerr n m)) ∧
    (∀ s, serializerr (JSVal.vString "oops") ≠ .ok (.vString s)) :=
  have h := claim_C10 (JSVal.vString "oops")
    (fun he => JSVal.noConfusion he) (fun he => JSVal.noConfusion he)
  ⟨h.1, h.2.2.2⟩

end FabricComposer
